import Mathlib

/-!
Verification of the NGINX ingress controller
(`controllers/nginx/pkg/cmd/controller/nginx.go`).

Modelling conventions:
* byte sequences (`[]byte`) are `List Nat`, one natural number per byte;
* Go's 64-bit `int` is `Int` together with an explicit two's-complement
  wraparound `wrap64` applied where Go arithmetic can overflow;
* Go's arithmetic right shift `>>` on `int` is `Int`'s `>>>`
  (`Int.shiftRight`, which shifts the two's-complement representation), and
  Go's bitwise or `|` is `Int.lor`;
* external effects (filesystem, subprocesses) are explicit inputs: an
  environment record says whether each call succeeds and what it returns.
-/

/-- Byte sequences (`[]byte` in Go), one natural number per byte. -/
abbrev Bytes := List Nat

/-- Reduction of an integer into the range of Go's 64-bit `int`
(two's-complement wraparound; the literals are `2 ^ 63` and `2 ^ 64`). -/
def wrap64 (x : Int) : Int :=
  (x + 9223372036854775808) % 18446744073709551616 - 9223372036854775808

/-- One smearing step of the power-of-two bit trick on Go ints:
`v | (v >> s)` on the two's-complement representation. -/
def intOrShift (x : Int) (s : Nat) : Int := Int.lor x (x >>> s)

/-- Embedding of `nextPowerOf2` (nginx.go): the round-up-to-a-power-of-two
bit trick `v--; v |= v >> 1; v |= v >> 2; v |= v >> 4; v |= v >> 8;
v |= v >> 16; v++` on Go's 64-bit `int`. -/
def nextPowerOf2 (x : Int) : Int :=
  wrap64 (intOrShift (intOrShift (intOrShift (intOrShift (intOrShift
    (wrap64 (x - 1)) 1) 2) 4) 8) 16 + 1)

/-- The smearing step as seen on a nonnegative value. -/
def orShift (x s : Nat) : Nat := x ||| x >>> s

/-- The five smearing steps of `nextPowerOf2` on a nonnegative value. -/
def natSmear (m : Nat) : Nat :=
  orShift (orShift (orShift (orShift (orShift m 1) 2) 4) 8) 16

/-- The smearing step as seen on the complement bits of a negative value. -/
def andShift (x s : Nat) : Nat := x &&& x >>> s

/-- The five smearing steps of `nextPowerOf2` as seen on the complement
bits of a negative value. -/
def natAndSmear (m : Nat) : Nat :=
  andShift (andShift (andShift (andShift (andShift m 1) 2) 4) 8) 16

theorem intOrShift_ofNat (a s : Nat) :
    intOrShift (a : Int) s = ((orShift a s : Nat) : Int) := rfl

theorem intOrShift_negSucc (a s : Nat) :
    intOrShift (Int.negSucc a) s = Int.negSucc (andShift a s) := rfl

theorem wrap64_eq {x : Int} (h1 : -9223372036854775808 ≤ x)
    (h2 : x < 9223372036854775808) : wrap64 x = x := by
  unfold wrap64
  rw [Int.emod_eq_of_lt (by omega) (by omega)]
  omega

/-- `x` has, at every position `i`, the union of the bits of `m` at
positions `i` through `i + w`. -/
def bitsWindow (m x w : Nat) : Prop :=
  ∀ i, x.testBit i = true ↔ ∃ d, d ≤ w ∧ m.testBit (i + d) = true

theorem bitsWindow_self (m : Nat) : bitsWindow m m 0 := by
  intro i
  constructor
  · intro h; exact ⟨0, Nat.le_refl 0, by simpa using h⟩
  · rintro ⟨d, hd, hb⟩
    have hd0 : d = 0 := Nat.le_zero.mp hd
    simpa [hd0] using hb

theorem bitsWindow_orShift {m x w : Nat} (h : bitsWindow m x w) :
    bitsWindow m (orShift x (w + 1)) (2 * w + 1) := by
  intro i
  rw [orShift, Nat.testBit_lor, Nat.testBit_shiftRight, Bool.or_eq_true,
    h i, h (w + 1 + i)]
  constructor
  · rintro (⟨d, hd, hb⟩ | ⟨d, hd, hb⟩)
    · exact ⟨d, by omega, hb⟩
    · exact ⟨w + 1 + d, by omega,
        by rw [show i + (w + 1 + d) = w + 1 + i + d by omega]; exact hb⟩
  · rintro ⟨d, hd, hb⟩
    by_cases hdw : d ≤ w
    · exact Or.inl ⟨d, hdw, hb⟩
    · exact Or.inr ⟨d - (w + 1), by omega,
        by rw [show w + 1 + i + (d - (w + 1)) = i + d by omega]; exact hb⟩

theorem natSmear_window (m : Nat) : bitsWindow m (natSmear m) 31 := by
  have h1 := bitsWindow_orShift (bitsWindow_self m)
  have h2 := bitsWindow_orShift h1
  have h3 := bitsWindow_orShift h2
  have h4 := bitsWindow_orShift h3
  have h5 := bitsWindow_orShift h4
  exact h5

theorem testBit_size_pred {m : Nat} (h : m ≠ 0) :
    m.testBit (Nat.size m - 1) = true := by
  have hpos : 0 < Nat.size m := Nat.size_pos.mpr (Nat.pos_of_ne_zero h)
  have h1 : 2 ^ (Nat.size m - 1) ≤ m := Nat.lt_size.mp (by omega)
  have h2 : m < 2 ^ Nat.size m := Nat.lt_size_self m
  have hs : Nat.size m = Nat.size m - 1 + 1 := by omega
  rw [hs, Nat.pow_succ] at h2
  have hlow : 1 ≤ m / 2 ^ (Nat.size m - 1) :=
    (Nat.one_le_div_iff (Nat.two_pow_pos _)).mpr h1
  have hhigh : m / 2 ^ (Nat.size m - 1) < 2 := Nat.div_lt_of_lt_mul h2
  have hdiv : m / 2 ^ (Nat.size m - 1) = 1 := by omega
  rw [Nat.testBit_to_div_mod, hdiv]
  rfl

theorem natSmear_eq {m : Nat} (hm : m < 2 ^ 32) :
    natSmear m = 2 ^ Nat.size m - 1 := by
  have hsize : Nat.size m ≤ 32 := Nat.size_le.mpr hm
  apply Nat.eq_of_testBit_eq
  intro i
  rw [Nat.testBit_two_pow_sub_one]
  by_cases hi : i < Nat.size m
  · have hm0 : m ≠ 0 := by
      intro h0
      rw [h0, Nat.size_zero] at hi
      omega
    have htop := testBit_size_pred hm0
    have hbit : (natSmear m).testBit i = true :=
      (natSmear_window m i).mpr ⟨Nat.size m - 1 - i, by omega,
        by rw [show i + (Nat.size m - 1 - i) = Nat.size m - 1 by omega]
           exact htop⟩
    rw [hbit]
    simp [hi]
  · have hbit : (natSmear m).testBit i = false := by
      rw [Bool.eq_false_iff]
      intro hb
      obtain ⟨d, hd, hbit⟩ := (natSmear_window m i).mp hb
      have hlt : m < 2 ^ (i + d) :=
        lt_of_lt_of_le (Nat.lt_size_self m)
          (Nat.pow_le_pow_right (by omega) (by omega))
      rw [Nat.testBit_lt_two_pow hlt] at hbit
      exact Bool.false_ne_true hbit
    rw [hbit]
    simp [hi]

theorem shiftRight_le_shiftRight {a b : Nat} (k : Nat) (h : a ≤ b) :
    a >>> k ≤ b >>> k := by
  simp only [Nat.shiftRight_eq_div_pow]
  exact Nat.div_le_div_right h

theorem natAndSmear_eq_zero {m : Nat} (hm : m < 2 ^ 31) : natAndSmear m = 0 := by
  have h1 : andShift m 1 ≤ m >>> 1 := Nat.and_le_right
  have h2 : andShift (andShift m 1) 2 ≤ m >>> 3 := by
    refine le_trans Nat.and_le_right (le_trans (shiftRight_le_shiftRight 2 h1) ?_)
    rw [← Nat.shiftRight_add m 1 2]
  have h3 : andShift (andShift (andShift m 1) 2) 4 ≤ m >>> 7 := by
    refine le_trans Nat.and_le_right (le_trans (shiftRight_le_shiftRight 4 h2) ?_)
    rw [← Nat.shiftRight_add m 3 4]
  have h4 : andShift (andShift (andShift (andShift m 1) 2) 4) 8 ≤ m >>> 15 := by
    refine le_trans Nat.and_le_right (le_trans (shiftRight_le_shiftRight 8 h3) ?_)
    rw [← Nat.shiftRight_add m 7 8]
  have h5 : natAndSmear m ≤ m >>> 31 := by
    refine le_trans Nat.and_le_right (le_trans (shiftRight_le_shiftRight 16 h4) ?_)
    rw [← Nat.shiftRight_add m 15 16]
  have hz : m >>> 31 = 0 := by
    rw [Nat.shiftRight_eq_div_pow]
    exact Nat.div_eq_of_lt hm
  omega

theorem nextPowerOf2_eq_pow {n : Int} (h1 : 1 ≤ n) (h2 : n ≤ 2 ^ 32) :
    nextPowerOf2 n = (2 : Int) ^ Nat.size (n - 1).toNat := by
  have e32 : (2 : Int) ^ 32 = 4294967296 := by norm_num
  rw [e32] at h2
  have hmn : (((n - 1).toNat : Nat) : Int) = n - 1 := Int.toNat_of_nonneg (by omega)
  set m := (n - 1).toNat with hm
  have e32n : (2 : Nat) ^ 32 = 4294967296 := by norm_num
  have hm32 : m < 2 ^ 32 := by omega
  have hsize : Nat.size m ≤ 32 := Nat.size_le.mpr hm32
  have hpow_le : (2 : Nat) ^ Nat.size m ≤ 2 ^ 32 :=
    Nat.pow_le_pow_right (by omega) hsize
  have hp1 : (1 : Nat) ≤ 2 ^ Nat.size m := Nat.one_le_two_pow
  unfold nextPowerOf2
  have w1 : wrap64 (n - 1) = (m : Int) := by
    rw [wrap64_eq (by omega) (by omega)]
    omega
  rw [w1, intOrShift_ofNat, intOrShift_ofNat, intOrShift_ofNat, intOrShift_ofNat,
    intOrShift_ofNat]
  rw [show orShift (orShift (orShift (orShift (orShift m 1) 2) 4) 8) 16
      = natSmear m from rfl]
  rw [natSmear_eq hm32]
  have hcast : ((2 ^ Nat.size m - 1 : Nat) : Int) + 1 = ((2 ^ Nat.size m : Nat) : Int) := by
    omega
  rw [hcast, wrap64_eq (by omega) (by omega)]
  push_cast
  rfl

theorem nextPowerOf2_nonpos {n : Int} (h1 : -(2 ^ 31) < n) (h2 : n ≤ 0) :
    nextPowerOf2 n = 0 := by
  have e31 : (2 : Int) ^ 31 = 2147483648 := by norm_num
  rw [e31] at h1
  have hMn : (((-n).toNat : Nat) : Int) = -n := Int.toNat_of_nonneg (by omega)
  set M := (-n).toNat with hM
  have e31n : (2 : Nat) ^ 31 = 2147483648 := by norm_num
  have hM31 : M < 2 ^ 31 := by omega
  unfold nextPowerOf2
  have w1 : wrap64 (n - 1) = Int.negSucc M := by
    rw [wrap64_eq (by omega) (by omega), Int.negSucc_eq]
    omega
  rw [w1, intOrShift_negSucc, intOrShift_negSucc, intOrShift_negSucc,
    intOrShift_negSucc, intOrShift_negSucc]
  rw [show andShift (andShift (andShift (andShift (andShift M 1) 2) 4) 8) 16
      = natAndSmear M from rfl]
  rw [natAndSmear_eq_zero hM31]
  decide

/-- The specification's notion of a power-of-two ceiling: `r` is a power of
two, at least `n`, and no smaller power of two is at least `n`. -/
def isPowerOfTwoCeiling (n r : Int) : Prop :=
  (∃ k : Nat, r = 2 ^ k) ∧ n ≤ r ∧
    ∀ s : Int, (∃ k : Nat, s = 2 ^ k) → n ≤ s → r ≤ s

theorem nextPowerOf2_isCeiling {n : Int} (h1 : 1 ≤ n) (h2 : n ≤ 2 ^ 32) :
    isPowerOfTwoCeiling n (nextPowerOf2 n) := by
  rw [nextPowerOf2_eq_pow h1 h2]
  have hmn : (((n - 1).toNat : Nat) : Int) = n - 1 := Int.toNat_of_nonneg (by omega)
  set m := (n - 1).toNat with hm
  refine ⟨⟨Nat.size m, rfl⟩, ?_, ?_⟩
  · have hlt : m < 2 ^ Nat.size m := Nat.lt_size_self m
    have hcast : ((2 ^ Nat.size m : Nat) : Int) = (2 : Int) ^ Nat.size m := by
      push_cast
      rfl
    omega
  · rintro s ⟨k, rfl⟩ hns
    have hcast : ((2 ^ k : Nat) : Int) = (2 : Int) ^ k := by
      push_cast
      rfl
    have hm2k : m < 2 ^ k := by omega
    have hk : Nat.size m ≤ k := Nat.size_le.mpr hm2k
    have hle : (2 : Nat) ^ Nat.size m ≤ 2 ^ k := Nat.pow_le_pow_right (by omega) hk
    have hcast2 : ((2 ^ Nat.size m : Nat) : Int) = (2 : Int) ^ Nat.size m := by
      push_cast
      rfl
    omega

/-- C1 -- counterexample: the claim says `nextPowerOf2 0 = 1` ("0 -> 1",
"for any input <= 0 it still returns 1, never 0"), but the bit trick maps
`0` to `0`: decrementing gives `-1` (all bits set), the or-steps keep `-1`,
and the final increment yields `0`. -/
theorem nextPowerOf2_zero_eq_zero : nextPowerOf2 0 = 0 := by decide

/-- C1 (amended): for every `n` with `1 ≤ n ≤ 2 ^ 32`, `nextPowerOf2 n` is
the smallest power of two that is at least `n` (in particular `1 -> 1`,
`5 -> 8`, `8 -> 8`, `9 -> 16`); but for every `n` with `-(2 ^ 31) < n ≤ 0`
(including `0`) it returns `0`, not `1`. -/
theorem nextPowerOf2_ceiling_spec :
    (∀ n : Int, 1 ≤ n → n ≤ 2 ^ 32 → isPowerOfTwoCeiling n (nextPowerOf2 n)) ∧
    (∀ n : Int, -(2 ^ 31) < n → n ≤ 0 → nextPowerOf2 n = 0) ∧
    nextPowerOf2 1 = 1 ∧ nextPowerOf2 5 = 8 ∧
    nextPowerOf2 8 = 8 ∧ nextPowerOf2 9 = 16 :=
  ⟨fun _ h1 h2 => nextPowerOf2_isCeiling h1 h2,
   fun _ h1 h2 => nextPowerOf2_nonpos h1 h2,
   by decide, by decide, by decide, by decide⟩

/-- Witness for C1 (amended) at concrete inputs `5` and `-3`. -/
theorem nextPowerOf2_ceiling_spec_witness :
    isPowerOfTwoCeiling 5 (nextPowerOf2 5) ∧ nextPowerOf2 (-3) = 0 :=
  ⟨nextPowerOf2_ceiling_spec.1 5 (by norm_num) (by norm_num),
   nextPowerOf2_ceiling_spec.2.1 (-3) (by norm_num) (by norm_num)⟩

/-- C10: for every `n` with `2 ≤ n ≤ 2 ^ 32` the bit trick returns the least
power of two that is at least `n`, but there is an input greater than
`2 ^ 32` and representable in Go's 64-bit `int` (here `2 ^ 63 - 1`) on which
the returned value (`-2 ^ 63`, after overflow of the final increment) is
smaller than the input and is not a power-of-two ceiling of it. -/
theorem nextPowerOf2_bit_trick_range :
    (∀ n : Int, 2 ≤ n → n ≤ 2 ^ 32 → isPowerOfTwoCeiling n (nextPowerOf2 n)) ∧
    (∃ n : Int, 2 ^ 32 < n ∧ n < 2 ^ 63 ∧ nextPowerOf2 n < n ∧
      ¬ isPowerOfTwoCeiling n (nextPowerOf2 n)) := by
  constructor
  · exact fun n h1 h2 => nextPowerOf2_isCeiling (by omega) h2
  · refine ⟨9223372036854775807, by norm_num, by norm_num, ?_, ?_⟩
    · rw [show nextPowerOf2 9223372036854775807 = -9223372036854775808 by decide]
      norm_num
    · rw [show nextPowerOf2 9223372036854775807 = -9223372036854775808 by decide]
      rintro ⟨⟨k, hk⟩, -, -⟩
      have hpos : (0 : Int) < 2 ^ k := by positivity
      omega

/-- Witness for C10 at the concrete input `7`. -/
theorem nextPowerOf2_bit_trick_range_witness :
    isPowerOfTwoCeiling 7 (nextPowerOf2 7) :=
  nextPowerOf2_bit_trick_range.1 7 (by norm_num) (by norm_num)

/-!
## The reload decision engine and the commit operation

`isReloadRequired` and `Reload` interact with the filesystem and with the
nginx process.  An `Env` records the outcome of each external call the code
makes: whether `os.Open(cfgPath)` succeeds, whether `ioutil.ReadAll`
succeeds and what the committed file contains, whether the temporary diff
file can be created and written, what the repository's `diff` helper
returns, whether `ioutil.WriteFile(cfgPath, ...)` succeeds, and what
`nginx -s reload` produces.
-/

structure Env where
  /-- whether `os.Open(cfgPath)` succeeds -/
  openOk : Bool
  /-- whether `ioutil.ReadAll(in)` succeeds -/
  readOk : Bool
  /-- the bytes of the committed configuration file at `cfgPath` -/
  committed : Bytes
  /-- whether `ioutil.TempFile("", "nginx-cfg-diff")` succeeds -/
  tmpCreateOk : Bool
  /-- whether `ioutil.WriteFile(tmpfile.Name(), data, 0644)` succeeds -/
  tmpWriteOk : Bool
  /-- result of the repository's `diff` helper: an error, or output bytes -/
  diff : Bytes → Bytes → Except Unit Bytes
  /-- whether `ioutil.WriteFile(cfgPath, data, 0644)` succeeds -/
  cfgWriteOk : Bool
  /-- whether `exec.Command(binary, "-s", "reload").CombinedOutput()` reports success -/
  signalOk : Bool
  /-- the combined output of the reload command -/
  signalOut : Bytes

/-- Modelled from the spec: the repository's `diff` helper (called by
`isReloadRequired` but not under src/) reports the textual diff of two byte
sequences; when it succeeds, its output is nonempty exactly when the inputs
differ; it may instead fail (e.g. the external diff tool is unavailable). -/
def diffSpec (e : Env) : Prop :=
  ∀ a b out, e.diff a b = Except.ok out → (0 < out.length ↔ a ≠ b)

/-- Embedding of `isReloadRequired` (nginx.go): open and read the committed
file (any failure returns `false`); if the bytes differ from `data`, create
and write a temporary file (any failure returns `false`), compute the diff
(failure returns `true`), and report whether the diff output is nonempty;
equal bytes return `false`. -/
def isReloadRequired (e : Env) (data : Bytes) : Bool :=
  if e.openOk = false then false
  else if e.readOk = false then false
  else if e.committed ≠ data then
    if e.tmpCreateOk = false then false
    else if e.tmpWriteOk = false then false
    else
      match e.diff e.committed data with
      | Except.error _ => true
      | Except.ok out => decide (0 < out.length)
  else false

theorem isReloadRequired_self (e : Env) (data : Bytes)
    (h : e.committed = data) : isReloadRequired e data = false := by
  simp [isReloadRequired, h]

/-- C2 -- counterexample: the claim says an unreadable committed
configuration makes `isReloadRequired` report `true`, but when `os.Open`
fails the code returns `false`. -/
theorem isReloadRequired_unreadable_counterexample :
    isReloadRequired
      ⟨false, true, [], true, true, fun _ _ => Except.ok [1], true, true, []⟩
      [1] = false := rfl

/-- C2 (amended): if the committed configuration cannot be read at all
(open fails or the read fails), `isReloadRequired` reports `false` -- no
reload -- for every candidate, swallowing the error. -/
theorem isReloadRequired_unreadable (e : Env) (data : Bytes)
    (h : e.openOk = false ∨ e.readOk = false) :
    isReloadRequired e data = false := by
  rcases h with h | h <;> simp [isReloadRequired, h]

/-- Witness for C2 (amended): a concrete environment whose open call fails. -/
theorem isReloadRequired_unreadable_witness :
    isReloadRequired
      ⟨false, true, [2], true, true, fun _ _ => Except.ok [1], true, true, []⟩
      [1] = false :=
  isReloadRequired_unreadable _ [1] (Or.inl rfl)

/-- C4: with the committed file readable and the temporary diff file
writable, the reload decision is byte-exact equality -- `false` on a
candidate identical to the committed bytes (for any environment), and
`true` on any candidate differing in at least one byte, the diff being
used for observability only. -/
theorem isReloadRequired_byte_equality (e : Env) (x y : Bytes)
    (hx : e.committed = x) :
    isReloadRequired e x = false ∧
    (e.openOk = true → e.readOk = true → e.tmpCreateOk = true →
      e.tmpWriteOk = true → diffSpec e → x ≠ y →
      isReloadRequired e y = true) := by
  refine ⟨isReloadRequired_self e x hx, ?_⟩
  intro hopen hread htc htw hspec hxy
  simp only [isReloadRequired, hopen, hread, htc, htw, hx]
  simp only [Bool.true_eq_false, if_false]
  rw [if_pos hxy]
  cases hd : e.diff x y with
  | error u => rfl
  | ok out =>
    have hlen : 0 < out.length := (hspec x y out hd).mpr hxy
    simp [hlen]

theorem diffSpec_of_if (e : Env)
    (hdiff : e.diff = fun a b => if a = b then Except.ok [] else Except.ok [0]) :
    diffSpec e := by
  intro a b out hab
  rw [hdiff] at hab
  dsimp only at hab
  by_cases hba : a = b
  · rw [if_pos hba] at hab
    injection hab with h
    subst h
    simp [hba]
  · rw [if_neg hba] at hab
    injection hab with h
    subst h
    simp [hba]

/-- Witness for C4 at concrete inputs: committed `[1]`, candidate `[2]`,
with a diff helper satisfying the spec contract. -/
theorem isReloadRequired_byte_equality_witness :
    isReloadRequired
      ⟨true, true, [1], true, true,
        fun a b => if a = b then Except.ok [] else Except.ok [0], true, true, []⟩
      [1] = false ∧
    (isReloadRequired
      ⟨true, true, [1], true, true,
        fun a b => if a = b then Except.ok [] else Except.ok [0], true, true, []⟩
      [2] = true) := by
  have h := isReloadRequired_byte_equality
    ⟨true, true, [1], true, true,
      fun a b => if a = b then Except.ok [] else Except.ok [0], true, true, []⟩
    [1] [2] rfl
  exact ⟨h.1, h.2 rfl rfl rfl rfl (diffSpec_of_if _ rfl) (by decide)⟩

/-- C7: when the candidate differs from the readable committed bytes and the
temporary file steps succeed, a failure of the diff computation still makes
`isReloadRequired` report `true` (reload required), not an error and not
`false`. -/
theorem isReloadRequired_diff_failure (e : Env) (x y : Bytes)
    (hopen : e.openOk = true) (hread : e.readOk = true)
    (hx : e.committed = x) (hxy : x ≠ y)
    (htc : e.tmpCreateOk = true) (htw : e.tmpWriteOk = true)
    (hd : e.diff x y = Except.error ()) :
    isReloadRequired e y = true := by
  simp only [isReloadRequired, hopen, hread, htc, htw, hx]
  simp only [Bool.true_eq_false, if_false]
  rw [if_pos hxy, hd]

/-- Witness for C7: a concrete environment whose diff helper fails. -/
theorem isReloadRequired_diff_failure_witness :
    isReloadRequired
      ⟨true, true, [1], true, true, fun _ _ => Except.error (), true, true, []⟩
      [2] = true :=
  isReloadRequired_diff_failure _ [1] [2] rfl rfl rfl (by decide) rfl rfl rfl

/-- C9: when the candidate genuinely differs from the readable committed
bytes, a failure to create (or to write) the temporary file used for diff
reporting makes `isReloadRequired` return `false`, suppressing the reload. -/
theorem isReloadRequired_tmpfile_failure (e : Env) (x y : Bytes)
    (hopen : e.openOk = true) (hread : e.readOk = true)
    (hx : e.committed = x) (hxy : x ≠ y) :
    (e.tmpCreateOk = false → isReloadRequired e y = false) ∧
    (e.tmpWriteOk = false → isReloadRequired e y = false) := by
  constructor
  · intro htc
    simp [isReloadRequired, hopen, hread, hx, hxy, htc]
  · intro htw
    by_cases htc : e.tmpCreateOk = false <;>
      simp [isReloadRequired, hopen, hread, hx, hxy, htc, htw]

/-- Witness for C9: concrete environments with a failing temporary file. -/
theorem isReloadRequired_tmpfile_failure_witness :
    isReloadRequired
      ⟨true, true, [1], false, true, fun _ _ => Except.ok [0], true, true, []⟩
      [2] = false :=
  (isReloadRequired_tmpfile_failure
    ⟨true, true, [1], false, true, fun _ _ => Except.ok [0], true, true, []⟩
    [1] [2] rfl rfl rfl (by decide)).1 rfl

/-- The error values `Reload` can return. -/
inductive ReloadErr where
  /-- the error built by the code when no reload is required -/
  | notRequired : ReloadErr
  /-- the error from `ioutil.WriteFile(cfgPath, data, 0644)` -/
  | writeFailed : ReloadErr
  /-- the reload command returned an error, with its combined output -/
  | signalFailed (out : Bytes) : ReloadErr
deriving DecidableEq

/-- The observable outcome of one `Reload` call: whether the committed path
was successfully written, whether the reload signal command was invoked,
and the returned value. -/
structure ReloadResult where
  wrote : Bool
  signaled : Bool
  result : Except ReloadErr Bytes

/-- Embedding of `Reload` (nginx.go): when `isReloadRequired` says no, the
error "Reload not required" is returned without writing or signaling;
otherwise the candidate is written to `cfgPath` (a write failure is
propagated) and `nginx -s reload` is invoked, returning its combined
output and error state. -/
def Reload (e : Env) (data : Bytes) : ReloadResult :=
  if isReloadRequired e data = false then
    ⟨false, false, Except.error ReloadErr.notRequired⟩
  else if e.cfgWriteOk = false then
    ⟨false, false, Except.error ReloadErr.writeFailed⟩
  else if e.signalOk = true then
    ⟨true, true, Except.ok e.signalOut⟩
  else
    ⟨true, true, Except.error (ReloadErr.signalFailed e.signalOut)⟩

/-- C3 -- counterexample: the claim says a candidate byte-identical to the
committed configuration makes `Reload` return success with no further
action, but at a concrete environment whose committed file holds exactly
the candidate bytes, `Reload` returns the error "Reload not required" --
an error, not success (it does perform no write and no signal). -/
theorem Reload_noop_counterexample :
    Reload ⟨true, true, [7], true, true, fun _ _ => Except.ok [], true, true, []⟩ [7]
      = ⟨false, false, Except.error ReloadErr.notRequired⟩ := rfl

/-- C3 (amended): for every candidate byte-identical to the committed
configuration, `Reload` performs no write to the committed path and sends
no reload signal, but it returns the error "Reload not required" rather
than success; in particular repeating a cycle with unchanged input
performs zero writes and signals after the first successful cycle. -/
theorem Reload_noop (e : Env) (data : Bytes) (h : e.committed = data) :
    Reload e data = ⟨false, false, Except.error ReloadErr.notRequired⟩ := by
  unfold Reload
  rw [isReloadRequired_self e data h]
  rfl

/-- Witness for C3 (amended) at a concrete environment. -/
theorem Reload_noop_witness :
    Reload ⟨true, true, [5], true, true, fun _ _ => Except.ok [], true, true, []⟩ [5]
      = ⟨false, false, Except.error ReloadErr.notRequired⟩ :=
  Reload_noop _ [5] rfl

/-!
## The validator `testTemplate`
-/

/-- The two error shapes `testTemplate` can produce. -/
inductive TemplateError where
  /-- the `ioutil.TempFile` error, returned unchanged (environment-level);
  the message is modelled as bytes -/
  | tmpCreate (msg : Bytes) : TemplateError
  /-- the error built when `nginx -t` fails: the banner wrapping the exit
  error and the checker's combined output (configuration-level) -/
  | invalid (exitErr : Bytes) (out : Bytes) : TemplateError
deriving DecidableEq

/-- Outcomes of the external calls `testTemplate` makes. -/
structure TestEnv where
  /-- whether `ioutil.TempFile("", "nginx-cfg")` succeeds -/
  tmpCreateOk : Bool
  /-- the error message when it fails -/
  tmpCreateErr : Bytes
  /-- whether `ioutil.WriteFile(tmpfile.Name(), cfg, 0644)` succeeds;
  the code discards this result -/
  tmpWriteOk : Bool
  /-- `n.Test(file).CombinedOutput()` on the candidate bytes: the combined
  output and, when `nginx -t` exits nonzero, its error message -/
  check : Bytes → Bytes × Option Bytes

/-- Embedding of `testTemplate` (nginx.go): create a temporary file (a
creation failure is returned as-is), write the candidate to it (the write
error is discarded by the code), run `nginx -t` against it; on checker
failure return the banner error holding the exit error and the checker's
combined output; on success remove the temporary file and return no
error.  The first component records whether `os.Remove(tmpfile.Name())`
was reached. -/
def testTemplate (e : TestEnv) (cfg : Bytes) : Bool × Except TemplateError Unit :=
  if e.tmpCreateOk = false then
    (false, Except.error (TemplateError.tmpCreate e.tmpCreateErr))
  else
    match (e.check cfg).2 with
    | some exitErr =>
        (false, Except.error (TemplateError.invalid exitErr (e.check cfg).1))
    | none => (true, Except.ok ())

/-- C8: `testTemplate` removes its temporary file on every success path,
and a failure to create the temporary file propagates as the filesystem
error itself -- an environment-level error whose shape is distinct from
the configuration-invalid error carrying the checker's diagnostic
output. -/
theorem testTemplate_cleanup_and_errors (e : TestEnv) (cfg : Bytes) :
    ((testTemplate e cfg).2 = Except.ok () → (testTemplate e cfg).1 = true) ∧
    (e.tmpCreateOk = false →
      (testTemplate e cfg).2
        = Except.error (TemplateError.tmpCreate e.tmpCreateErr) ∧
      ∀ exitErr out,
        TemplateError.tmpCreate e.tmpCreateErr
          ≠ TemplateError.invalid exitErr out) := by
  constructor
  · intro hok
    unfold testTemplate at hok ⊢
    by_cases htc : e.tmpCreateOk = false
    · rw [if_pos htc] at hok
      exact absurd hok (by simp)
    · rw [if_neg htc] at hok ⊢
      cases hc : (e.check cfg).2 with
      | some s => rw [hc] at hok; simp at hok
      | none => rfl
  · intro htc
    exact ⟨by simp [testTemplate, htc], fun exitErr out => by simp⟩

/-- Witness for C8 at concrete environments: one whose checker accepts, one
whose temporary file cannot be created. -/
theorem testTemplate_cleanup_and_errors_witness :
    (testTemplate ⟨true, [9], true, fun _ => ([], none)⟩ [1]).1 = true ∧
    (testTemplate ⟨false, [9], true, fun _ => ([], none)⟩ [1]).2
      = Except.error (TemplateError.tmpCreate [9]) :=
  ⟨(testTemplate_cleanup_and_errors ⟨true, [9], true, fun _ => ([], none)⟩ [1]).1 rfl,
   ((testTemplate_cleanup_and_errors ⟨false, [9], true, fun _ => ([], none)⟩ [1]).2 rfl).1⟩

/-!
## The synchronization entry point `OnUpdate`
-/

/-- Modelled from the spec: a server entry of the desired state
(`ingress.Configuration.Servers`, defined outside src/); the controller
reads only its hostname, modelled as its byte sequence. -/
structure Server where
  hostname : Bytes

/-- Modelled from the spec: the options bag produced by
`ngx_template.ReadConfig(cmap)` (outside src/); only the fields the
controller reads are modelled. -/
structure Config where
  serverNameHashBucketSize : Int
  serverNameHashMaxSize : Int
  customHTTPErrors : List Int
deriving DecidableEq

/-- Modelled from the spec: the desired state (`ingress.Configuration`,
outside src/); backend entries are abstracted to byte blobs since the
controller only forwards them. -/
structure IngressConfiguration where
  backends : List Bytes
  servers : List Server
  tcpEndpoints : List Bytes
  udpEndpoints : List Bytes
  passthroughBackends : List Bytes

/-- The `config.TemplateConfig` value `OnUpdate` hands to the template. -/
structure TemplateConfig where
  backlogSize : Int
  backends : List Bytes
  passthroughBackends : List Bytes
  servers : List Server
  tcpBackends : List Bytes
  udpBackends : List Bytes
  healthzURI : Bytes
  customErrors : Bool
  cfg : Config

/-- The first loop of `OnUpdate`: the running sum `serverNames` of the
hostname byte lengths. -/
def serverNamesLen (ss : List Server) : Int :=
  ss.foldl (fun acc s => acc + (s.hostname.length : Int)) 0

/-- The first loop of `OnUpdate`: the running maximum `longestName` of the
hostname byte lengths. -/
def longestNameLen (ss : List Server) : Int :=
  ss.foldl
    (fun acc s =>
      if acc < (s.hostname.length : Int) then (s.hostname.length : Int) else acc)
    0

/-- The hash-table sizing adjustments of `OnUpdate`: raise
`ServerNameHashBucketSize` to `nextPowerOf2(longestName)` and
`ServerNameHashMaxSize` to `nextPowerOf2(serverNames)` whenever the
computed value exceeds the configured one. -/
def effectiveConfig (cfg : Config) (servers : List Server) : Config :=
  let nameHashBucketSize := nextPowerOf2 (longestNameLen servers)
  let cfg1 :=
    if nameHashBucketSize > cfg.serverNameHashBucketSize then
      { cfg with serverNameHashBucketSize := nameHashBucketSize }
    else cfg
  let serverNameHashMaxSize := nextPowerOf2 (serverNamesLen servers)
  if serverNameHashMaxSize > cfg1.serverNameHashMaxSize then
    { cfg1 with serverNameHashMaxSize := serverNameHashMaxSize }
  else cfg1

/-- The ASCII bytes of the string "/healthz". -/
def healthzBytes : Bytes := [47, 104, 101, 97, 108, 116, 104, 122]

/-- The `config.TemplateConfig` built by `OnUpdate`: the environment's
backlog size, the desired-state collections, the `/healthz` URI, the
custom-errors flag, and the sizing-adjusted options. -/
def onUpdateTemplateConfig (somaxconn : Int) (cmapCfg : Config)
    (ic : IngressConfiguration) : TemplateConfig :=
  { backlogSize := somaxconn
    backends := ic.backends
    passthroughBackends := ic.passthroughBackends
    servers := ic.servers
    tcpBackends := ic.tcpEndpoints
    udpBackends := ic.udpEndpoints
    healthzURI := healthzBytes
    customErrors :=
      decide (0 < (effectiveConfig cmapCfg ic.servers).customHTTPErrors.length)
    cfg := effectiveConfig cmapCfg ic.servers }

/-- Modelled from the spec: `Template.Write` (package ngx_template, outside
src/) renders the template configuration to bytes and runs the supplied
validation callback on them; a validation error is returned with no bytes;
otherwise the rendered bytes are returned. -/
def templateWrite (render : TemplateConfig → Bytes)
    (validate : Bytes → Except TemplateError Unit) (tc : TemplateConfig) :
    Except TemplateError Bytes :=
  match validate (render tc) with
  | Except.error err => Except.error err
  | Except.ok _ => Except.ok (render tc)

/-- Embedding of `OnUpdate` (nginx.go): compute the sizing-adjusted options
and hand the template configuration to the template writer with
`testTemplate` as the validation callback.  `OnUpdate` contains no write
to the committed configuration path, so the committed bytes are returned
unchanged as the first component. -/
def OnUpdate (e : TestEnv) (render : TemplateConfig → Bytes) (somaxconn : Int)
    (committed : Bytes) (cmapCfg : Config) (ic : IngressConfiguration) :
    Bytes × Except TemplateError Bytes :=
  (committed,
    templateWrite render (fun b => (testTemplate e b).2)
      (onUpdateTemplateConfig somaxconn cmapCfg ic))

theorem effectiveConfig_fields (cfg : Config) (ss : List Server) :
    (effectiveConfig cfg ss).serverNameHashBucketSize
      = max cfg.serverNameHashBucketSize (nextPowerOf2 (longestNameLen ss)) ∧
    (effectiveConfig cfg ss).serverNameHashMaxSize
      = max cfg.serverNameHashMaxSize (nextPowerOf2 (serverNamesLen ss)) := by
  unfold effectiveConfig
  dsimp only
  split_ifs with h1 h2 h2 <;> constructor <;> (try dsimp only at h2) <;>
    (try dsimp only) <;> rw [max_def] <;> split_ifs <;> omega

/-- C5: when the checker rejects the rendered candidate, `OnUpdate` (with
`testTemplate` as the validation callback) returns the
configuration-invalid error carrying the checker's diagnostic output, and
the committed configuration is byte-identical to what it was before the
call (no partial commit: `OnUpdate` never writes the committed path). -/
theorem OnUpdate_validation_failure (e : TestEnv)
    (render : TemplateConfig → Bytes) (somaxconn : Int) (committed : Bytes)
    (cmapCfg : Config) (ic : IngressConfiguration) (exitErr out : Bytes)
    (htc : e.tmpCreateOk = true)
    (hcheck : e.check (render (onUpdateTemplateConfig somaxconn cmapCfg ic))
      = (out, some exitErr)) :
    OnUpdate e render somaxconn committed cmapCfg ic
      = (committed, Except.error (TemplateError.invalid exitErr out)) := by
  have ht : (testTemplate e (render (onUpdateTemplateConfig somaxconn cmapCfg ic))).2
      = Except.error (TemplateError.invalid exitErr out) := by
    unfold testTemplate
    rw [if_neg (by simp [htc]), hcheck]
  simp only [OnUpdate, templateWrite, ht]

/-- Witness for C5: a concrete environment whose checker rejects every
candidate with output `[9]` and error message `[8]`. -/
theorem OnUpdate_validation_failure_witness :
    OnUpdate ⟨true, [], true, fun _ => ([9], some [8])⟩ (fun _ => [1]) 0 [3]
      ⟨1, 1, []⟩ ⟨[], [], [], [], []⟩
      = ([3], Except.error (TemplateError.invalid [8] [9])) :=
  OnUpdate_validation_failure _ _ 0 [3] _ _ [8] [9] rfl rfl

/-- C6: the `ServerNameHashBucketSize` used by `OnUpdate` equals the maximum
of the supplied base value and `nextPowerOf2` of the longest hostname byte
length, the `ServerNameHashMaxSize` used equals the maximum of the base
value and `nextPowerOf2` of the summed hostname byte lengths, neither is
ever below its supplied base value, and on lengths in `[1, 2 ^ 32]` the
`nextPowerOf2` value is the true power-of-two ceiling of the length. -/
theorem OnUpdate_hash_sizing (somaxconn : Int) (cmapCfg : Config)
    (ic : IngressConfiguration) :
    ((onUpdateTemplateConfig somaxconn cmapCfg ic).cfg.serverNameHashBucketSize
      = max cmapCfg.serverNameHashBucketSize
          (nextPowerOf2 (longestNameLen ic.servers)) ∧
     (onUpdateTemplateConfig somaxconn cmapCfg ic).cfg.serverNameHashMaxSize
      = max cmapCfg.serverNameHashMaxSize
          (nextPowerOf2 (serverNamesLen ic.servers))) ∧
    (cmapCfg.serverNameHashBucketSize
      ≤ (onUpdateTemplateConfig somaxconn cmapCfg ic).cfg.serverNameHashBucketSize ∧
     cmapCfg.serverNameHashMaxSize
      ≤ (onUpdateTemplateConfig somaxconn cmapCfg ic).cfg.serverNameHashMaxSize) ∧
    (1 ≤ longestNameLen ic.servers → longestNameLen ic.servers ≤ 2 ^ 32 →
      isPowerOfTwoCeiling (longestNameLen ic.servers)
        (nextPowerOf2 (longestNameLen ic.servers))) ∧
    (1 ≤ serverNamesLen ic.servers → serverNamesLen ic.servers ≤ 2 ^ 32 →
      isPowerOfTwoCeiling (serverNamesLen ic.servers)
        (nextPowerOf2 (serverNamesLen ic.servers))) := by
  have hf := effectiveConfig_fields cmapCfg ic.servers
  have hcfg : (onUpdateTemplateConfig somaxconn cmapCfg ic).cfg
      = effectiveConfig cmapCfg ic.servers := rfl
  refine ⟨⟨?_, ?_⟩, ⟨?_, ?_⟩, fun a b => nextPowerOf2_isCeiling a b,
    fun a b => nextPowerOf2_isCeiling a b⟩
  · rw [hcfg, hf.1]
  · rw [hcfg, hf.2]
  · rw [hcfg, hf.1]; exact le_max_left _ _
  · rw [hcfg, hf.2]; exact le_max_left _ _

/-- Witness for C6: one server with hostname "a.com" (five bytes). -/
theorem OnUpdate_hash_sizing_witness :
    isPowerOfTwoCeiling (longestNameLen [⟨[97, 46, 99, 111, 109]⟩])
      (nextPowerOf2 (longestNameLen [⟨[97, 46, 99, 111, 109]⟩])) :=
  (OnUpdate_hash_sizing 0 ⟨4, 512, []⟩
    ⟨[], [⟨[97, 46, 99, 111, 109]⟩], [], [], []⟩).2.2.1
    (by decide) (by decide)
